import Mathlib

/-!
Verification development for the `translator` video-translation pipeline.

The Python sources are shallowly embedded: Python `float` arithmetic is
modelled exactly over `ℚ`, Python exceptions become an explicit error
inductive carried through `Except`, and each loop becomes a fold or an
explicit recursion over the sequence of values the loop consumes.
-/

/-- Kinds of Python exceptions raised by the embedded code. -/
inductive PyErr where
  | stopIteration
  | valueError (msg : String)
  | runtimeError
  | keyError (key : String)
  | indexError
  | nameError
  | assertionError
  deriving DecidableEq, Repr

/-- Python `a % b` on floats (sign follows the divisor; exact over `ℚ`). -/
def pyMod (a b : ℚ) : ℚ := a - b * ⌊a / b⌋

/-- Python `a // b` on floats: floor division, returning a float. -/
def pyFloorDiv (a b : ℚ) : ℚ := (⌊a / b⌋ : ℚ)

/-- Python `int(q)` on a float: truncation toward zero. -/
def pyInt (q : ℚ) : ℤ := if 0 ≤ q then ⌊q⌋ else ⌈q⌉

/-- Decimal digits, fuel-based so that it evaluates by kernel reduction. -/
def natDigitsGo : Nat → Nat → List Char
  | 0, _ => []
  | fuel + 1, n =>
    if n < 10 then [Char.ofNat (48 + n)]
    else natDigitsGo fuel (n / 10) ++ [Char.ofNat (48 + n % 10)]

/-- Decimal digits of a natural number, most significant first. -/
def natDigits (n : Nat) : List Char := natDigitsGo (n + 1) n

/-- Rendering of an integer as Python prints it. -/
def intRepr (n : ℤ) : List Char :=
  if n < 0 then '-' :: natDigits n.natAbs else natDigits n.toNat

/-- Python `f"{n:0W.0f}"` for an integer `n`: decimal digits, left-padded
with `'0'` to a minimal width `w`. -/
def intPad (w : Nat) (n : ℤ) : String :=
  let ds := intRepr n
  ⟨List.replicate (w - ds.length) '0' ++ ds⟩

/-- `subtitles.Line`: a timed span of text.  The Python attribute `end` is
spelled `end_` because `end` is a Lean keyword. -/
structure Line where
  start : ℚ
  end_ : ℚ
  text : String
  lang : String
  deriving DecidableEq, Repr

/-- Python runtime values as far as `Line.__init__`'s `isinstance`
validators can distinguish them: numbers (`int`/`float`) or strings. -/
inductive PyVal where
  | num (q : ℚ)
  | str (s : String)
  deriving DecidableEq, Repr

/-- `Line.__init__`: asserts `isinstance(start, (int, float))`,
`isinstance(end, (int, float))`, `isinstance(text, str)`,
`isinstance(lang, str)` and stores the four fields.  No relation between
`start` and `end` is checked. -/
def lineInit : PyVal → PyVal → PyVal → PyVal → Except PyErr Line
  | .num s, .num e, .str t, .str l => .ok ⟨s, e, t, l⟩
  | _, _, _, _ => .error .assertionError

/-- `Line.float_to_srt_time`, translated statement by statement:
`microseconds = int((value % 1) * 1000)`, `seconds = int(value % 60)`,
`minutes = int(value // 60)`, `hours = int(minutes // 60)`,
`minutes = minutes % 60`, then zero-padded f-string fields. -/
def float_to_srt_time (value : ℚ) : String :=
  let microseconds : ℤ := pyInt (pyMod value 1 * 1000)
  let seconds : ℤ := pyInt (pyMod value 60)
  let minutes : ℤ := pyInt (pyFloorDiv value 60)
  let hours : ℤ := minutes.fdiv 60
  let minutes2 : ℤ := minutes.fmod 60
  intPad 2 hours ++ ":" ++ intPad 2 minutes2 ++ ":" ++ intPad 2 seconds
    ++ "," ++ intPad 3 microseconds

/-- The time format the specification describes: milliseconds
`int((v % 1) * 1000)`, total seconds = integer part of `v`,
`seconds = total_seconds mod 60`, `minutes = (total_seconds div 60) mod 60`,
`hours = total_seconds div 60 div 60` (unbounded integer division), each
field zero-padded to widths 2/2/2/3. -/
def srt_time_spec (v : ℚ) : String :=
  let ms : ℤ := pyInt (pyMod v 1 * 1000)
  let total_seconds : ℤ := pyInt v
  let seconds : ℤ := total_seconds % 60
  let total_minutes : ℤ := total_seconds / 60
  let minutes : ℤ := total_minutes % 60
  let hours : ℤ := total_minutes / 60
  intPad 2 hours ++ ":" ++ intPad 2 minutes ++ ":" ++ intPad 2 seconds
    ++ "," ++ intPad 3 ms

lemma pyMod_nonneg (a : ℚ) {b : ℚ} (hb : 0 < b) : 0 ≤ pyMod a b := by
  have h := Int.fract_nonneg (a / b)
  have : pyMod a b = b * Int.fract (a / b) := by
    unfold pyMod Int.fract
    field_simp
  rw [this]
  positivity

lemma pyMod_lt (a : ℚ) {b : ℚ} (hb : 0 < b) : pyMod a b < b := by
  have h := Int.fract_lt_one (a / b)
  have heq : pyMod a b = b * Int.fract (a / b) := by
    unfold pyMod Int.fract
    field_simp
  rw [heq]
  calc b * Int.fract (a / b) < b * 1 := by
        exact mul_lt_mul_of_pos_left h hb
    _ = b := mul_one b

lemma pyInt_of_nonneg {q : ℚ} (h : 0 ≤ q) : pyInt q = ⌊q⌋ := by
  simp [pyInt, h]

lemma pyInt_intCast (n : ℤ) : pyInt (n : ℚ) = n := by
  unfold pyInt
  split <;> simp

/-- Floor of a rational divided by 60 is integer division of its floor. -/
lemma floor_div_sixty (v : ℚ) : ⌊v / 60⌋ = ⌊v⌋ / 60 := by
  rw [Int.floor_eq_iff]
  constructor
  · rw [le_div_iff₀ (by norm_num : (0:ℚ) < 60)]
    have h1 : (⌊v⌋ / 60 * 60 : ℤ) ≤ ⌊v⌋ := by omega
    calc ((⌊v⌋ / 60 : ℤ) : ℚ) * 60 = ((⌊v⌋ / 60 * 60 : ℤ) : ℚ) := by push_cast; ring
      _ ≤ ((⌊v⌋ : ℤ) : ℚ) := by exact_mod_cast h1
      _ ≤ v := Int.floor_le v
  · rw [div_lt_iff₀ (by norm_num : (0:ℚ) < 60)]
    have h2 : (⌊v⌋ : ℤ) + 1 ≤ (⌊v⌋ / 60 + 1) * 60 := by omega
    calc v < (⌊v⌋ : ℚ) + 1 := Int.lt_floor_add_one v
      _ = (((⌊v⌋ : ℤ) + 1 : ℤ) : ℚ) := by push_cast; ring
      _ ≤ (((⌊v⌋ / 60 + 1) * 60 : ℤ) : ℚ) := by exact_mod_cast h2
      _ = ((⌊v⌋ / 60 : ℤ) : ℚ) * 60 + 60 := by push_cast; ring
      _ = (((⌊v⌋ / 60 : ℤ) : ℚ) + 1) * 60 := by ring

lemma pyInt_pyMod_sixty (v : ℚ) : pyInt (pyMod v 60) = ⌊v⌋ % 60 := by
  rw [pyInt_of_nonneg (pyMod_nonneg v (by norm_num))]
  have h : pyMod v 60 = v - ((60 * ⌊v / 60⌋ : ℤ) : ℚ) := by
    unfold pyMod
    push_cast
    ring
  rw [h, Int.floor_sub_int, floor_div_sixty]
  omega

lemma natDigitsGo_len_le :
    ∀ (fuel k n : Nat), n < fuel → 0 < k → n < 10 ^ k →
    (natDigitsGo fuel n).length ≤ k := by
  intro fuel
  induction fuel with
  | zero =>
    intro k n h
    omega
  | succ fuel ih =>
    intro k n hf hk hn
    rw [natDigitsGo]
    split
    · simp
      omega
    · rename_i h10
      cases k with
      | zero => omega
      | succ k2 =>
        have hk2 : 0 < k2 := by
          by_contra hk0
          have hzero : k2 = 0 := by omega
          subst hzero
          simp at hn
          omega
        have hpow : 10 ^ (k2 + 1) = 10 ^ k2 * 10 := by rw [pow_succ]
        rw [hpow] at hn
        have hdiv : n / 10 < 10 ^ k2 := by omega
        have hfd : n / 10 < fuel := by
          have hlt : n / 10 < n := Nat.div_lt_self (by omega) (by norm_num)
          omega
        have hlen := ih k2 (n / 10) hfd hk2 hdiv
        simp only [List.length_append, List.length_cons, List.length_nil]
        omega

lemma natDigits_len_le (k n : Nat) (hk : 0 < k) (hn : n < 10 ^ k) :
    (natDigits n).length ≤ k :=
  natDigitsGo_len_le (n + 1) k n (by omega) hk hn

lemma intPad_length {w : Nat} {n : ℤ} (h0 : 0 ≤ n)
    (h : (natDigits n.toNat).length ≤ w) : (intPad w n).length = w := by
  unfold intPad intRepr
  have : ¬ n < 0 := by omega
  simp only [this, if_false]
  show (List.replicate (w - (natDigits n.toNat).length) '0' ++ natDigits n.toNat).length = w
  simp [List.length_append, List.length_replicate]
  omega

lemma intPad_two_length {n : ℤ} (h0 : 0 ≤ n) (h : n < 100) :
    (intPad 2 n).length = 2 :=
  intPad_length h0 (natDigits_len_le 2 n.toNat (by norm_num) (by omega))

lemma intPad_three_length {n : ℤ} (h0 : 0 ≤ n) (h : n < 1000) :
    (intPad 3 n).length = 3 :=
  intPad_length h0 (natDigits_len_le 3 n.toNat (by norm_num) (by omega))

/-- C7: for every `v ≥ 0` the formatter output equals the specification's
`HH:MM:SS,mmm` rendering (ms = `int((v % 1) * 1000)`, seconds = integer
part of `v` mod 60, minutes = total seconds div 60 mod 60, hours = total
minutes div 60 with unbounded integer division), the `MM`, `SS` and `mmm`
fields are zero-padded to widths 2, 2 and 3, and whenever the hour count
fits in two digits the full string has the fixed width 12. -/
theorem float_to_srt_time_matches_spec (v : ℚ) (hv : 0 ≤ v) :
    float_to_srt_time v = srt_time_spec v ∧
    (intPad 2 (pyInt v / 60 % 60)).length = 2 ∧
    (intPad 2 (pyInt v % 60)).length = 2 ∧
    (intPad 3 (pyInt (pyMod v 1 * 1000))).length = 3 ∧
    (v < 360000 → (float_to_srt_time v).length = 12) := by
  have hT : pyInt v = ⌊v⌋ := pyInt_of_nonneg hv
  have hfloor0 : (0:ℤ) ≤ ⌊v⌋ := Int.floor_nonneg.mpr hv
  have hsec : pyInt (pyMod v 60) = ⌊v⌋ % 60 := pyInt_pyMod_sixty v
  have hmin : pyInt (pyFloorDiv v 60) = ⌊v⌋ / 60 := by
    unfold pyFloorDiv
    rw [pyInt_intCast, floor_div_sixty]
  have hmsnn : (0:ℚ) ≤ pyMod v 1 * 1000 :=
    mul_nonneg (pyMod_nonneg v (by norm_num)) (by norm_num)
  have hms0 : (0:ℤ) ≤ pyInt (pyMod v 1 * 1000) := by
    rw [pyInt_of_nonneg hmsnn]
    exact Int.floor_nonneg.mpr hmsnn
  have hmslt : pyInt (pyMod v 1 * 1000) < 1000 := by
    rw [pyInt_of_nonneg hmsnn]
    have h1 : pyMod v 1 < 1 := pyMod_lt v (by norm_num)
    have h2 : pyMod v 1 * 1000 < 1000 := by nlinarith [pyMod_nonneg v (show (0:ℚ) < 1 by norm_num)]
    exact Int.floor_lt.mpr (by exact_mod_cast h2)
  have heq : float_to_srt_time v = srt_time_spec v := by
    simp only [float_to_srt_time, srt_time_spec]
    rw [hsec, hmin, hT, Int.fdiv_eq_ediv _ (by norm_num : (0:ℤ) ≤ 60),
      Int.fmod_eq_emod _ (by norm_num : (0:ℤ) ≤ 60)]
  refine ⟨heq, ?_, ?_, ?_, ?_⟩
  · rw [hT]
    exact intPad_two_length (by omega) (by omega)
  · rw [hT]
    exact intPad_two_length (by omega) (by omega)
  · exact intPad_three_length hms0 hmslt
  · intro hlt
    have hfl : ⌊v⌋ < 360000 := Int.floor_lt.mpr (by exact_mod_cast hlt)
    simp only [float_to_srt_time, String.length_append]
    rw [hsec, hmin, Int.fdiv_eq_ediv _ (by norm_num : (0:ℤ) ≤ 60),
      Int.fmod_eq_emod _ (by norm_num : (0:ℤ) ≤ 60)]
    rw [intPad_two_length (by omega) (show ⌊v⌋ / 60 / 60 < 100 by omega),
      intPad_two_length (by omega) (show ⌊v⌋ / 60 % 60 < 100 by omega),
      intPad_two_length (by omega) (show ⌊v⌋ % 60 < 100 by omega),
      intPad_three_length hms0 hmslt]
    rfl

/-- Witness for C7 at `v = 3661.5`. -/
theorem float_to_srt_time_matches_spec_witness :
    (0:ℚ) ≤ 7323 / 2 ∧
    (float_to_srt_time (7323 / 2) = srt_time_spec (7323 / 2) ∧
      (intPad 2 (pyInt (7323 / 2) / 60 % 60)).length = 2 ∧
      (intPad 2 (pyInt (7323 / 2) % 60)).length = 2 ∧
      (intPad 3 (pyInt (pyMod (7323 / 2) 1 * 1000))).length = 3 ∧
      ((7323 / 2 : ℚ) < 360000 → (float_to_srt_time (7323 / 2)).length = 12)) :=
  ⟨by norm_num, float_to_srt_time_matches_spec (7323 / 2) (by norm_num)⟩



/-! ## TranslationService (`translator.py`) -/

/-- One recorded application of an installed translation capability:
`direct` is a `ru -> code` package, `transit` an `en -> code` package. -/
inductive TCall where
  | direct (code : String) (input : String)
  | transit (code : String) (input : String)
  deriving DecidableEq, Repr

/-- `translator.Translator`'s state: the direct map (`ru -> X` packages)
and the transit map (`en -> X` packages), as association lists in Python
dict insertion order.  Capabilities are modelled as string functions. -/
structure Translator where
  direct_map : List (String × (String → String))
  transit_map : List (String × (String → String))

/-- Python dict lookup `m[k]` as an option. -/
def lookupMap (m : List (String × (String → String))) (k : String) :
    Option (String → String) :=
  (m.find? (fun p => p.1 == k)).map (fun p => p.2)

/-- `Translator.translate`: direct route if the target is in the direct
map, else transit through the direct English capability, else
`ValueError('No such language')`.  The returned list records every
capability application, in order. -/
def Translator.translate (t : Translator) (string target : String) :
    Except PyErr (String × List TCall) :=
  match lookupMap t.direct_map target with
  | some f => .ok (f string, [.direct target string])
  | none =>
    match lookupMap t.transit_map target with
    | some g =>
      match lookupMap t.direct_map "en" with
      | some fEn =>
        .ok (g (fEn string), [.direct "en" string, .transit target (fEn string)])
      | none => .error (.keyError "en")
    | none => .error (.valueError "No such language")

/-- Python `m[k] = v`: overwrite in place, else append (insertion order). -/
def dictSet (m : List (String × (String → String))) (k : String)
    (v : String → String) : List (String × (String → String)) :=
  if m.any (fun p => p.1 == k) then
    m.map (fun p => if p.1 == k then (k, v) else p)
  else m ++ [(k, v)]

/-- Python `m.pop(k)`: remove the key, `KeyError` if absent. -/
def dictPop (m : List (String × (String → String))) (k : String) :
    Except PyErr (List (String × (String → String))) :=
  if m.any (fun p => p.1 == k) then .ok (m.filter (fun p => p.1 != k))
  else .error (.keyError k)

/-- An installed argostranslate package, identified by its codes. -/
structure ArgosPackage where
  from_code : String
  to_code : String

/-- `Translator.__init__`: fills the direct map from `ru -> X` packages
and the transit map from `en -> X` packages, then pops `ru` from the
transit map.  `cap from to` models `get_translation_from_codes`. -/
def translatorInit (packages : List ArgosPackage)
    (cap : String → String → String → String) : Except PyErr Translator :=
  let maps := packages.foldl
    (fun (dm : List (String × (String → String)) × List (String × (String → String))) p =>
      if p.from_code == "ru" then
        (dictSet dm.1 p.to_code (cap p.from_code p.to_code), dm.2)
      else if p.from_code == "en" then
        (dm.1, dictSet dm.2 p.to_code (cap p.from_code p.to_code))
      else dm)
    ([], [])
  (dictPop maps.2 "ru").map (fun tm => ⟨maps.1, tm⟩)

/-- `Translator.available_codes`: `sorted([*direct.keys(), *transit.keys()])`. -/
def Translator.available_codes (t : Translator) : List String :=
  List.insertionSort (· ≤ ·) (t.direct_map.map Prod.fst ++ t.transit_map.map Prod.fst)

/-- C4: given that the direct English capability is installed, `translate`
uses the direct capability when the target is in the direct map (a single
direct call, never the transit path), otherwise composes exactly one
direct-to-English call with one transit call when the target is in the
transit map, otherwise fails with the `UnsupportedLanguage` error
(`ValueError('No such language')`), and no other error is possible. -/
theorem translate_routing (t : Translator) (text target : String)
    (h_en : ∃ fEn, lookupMap t.direct_map "en" = some fEn) :
    (∀ f, lookupMap t.direct_map target = some f →
      t.translate text target = .ok (f text, [.direct target text])) ∧
    (lookupMap t.direct_map target = none →
      ∀ g, lookupMap t.transit_map target = some g →
      ∀ fEn, lookupMap t.direct_map "en" = some fEn →
      t.translate text target =
        .ok (g (fEn text), [.direct "en" text, .transit target (fEn text)])) ∧
    (lookupMap t.direct_map target = none →
      lookupMap t.transit_map target = none →
      t.translate text target = .error (.valueError "No such language")) ∧
    (∀ e, t.translate text target = .error e → e = .valueError "No such language") := by
  obtain ⟨fEn, hEn⟩ := h_en
  refine ⟨?_, ?_, ?_, ?_⟩
  · intro f hf
    simp [Translator.translate, hf]
  · intro h1 g hg fEn' hEn'
    simp [Translator.translate, h1, hg, hEn']
  · intro h1 h2
    simp [Translator.translate, h1, h2]
  · intro e he
    rcases h1 : lookupMap t.direct_map target with _ | f
    · rcases h2 : lookupMap t.transit_map target with _ | g
      · simp [Translator.translate, h1, h2] at he
        exact he.symm
      · simp [Translator.translate, h1, h2, hEn] at he
    · simp [Translator.translate, h1] at he

/-- A concrete direct `ru -> en` capability for witnesses. -/
def capEn : String → String := fun s => s ++ ">en"

/-- A concrete transit `en -> de` capability for witnesses. -/
def capDe : String → String := fun s => s ++ ">de"

/-- A concrete translator state: direct `{en}`, transit `{de}`. -/
def tWitness : Translator := ⟨[("en", capEn)], [("de", capDe)]⟩

/-- Witness for C4: the routing theorem applied to a concrete translator,
text and target. -/
theorem translate_routing_witness :
    (∃ fEn, lookupMap tWitness.direct_map "en" = some fEn) ∧
    ((∀ f, lookupMap tWitness.direct_map "de" = some f →
      tWitness.translate "hello" "de" = .ok (f "hello", [.direct "de" "hello"])) ∧
    (lookupMap tWitness.direct_map "de" = none →
      ∀ g, lookupMap tWitness.transit_map "de" = some g →
      ∀ fEn, lookupMap tWitness.direct_map "en" = some fEn →
      tWitness.translate "hello" "de" =
        .ok (g (fEn "hello"), [.direct "en" "hello", .transit "de" (fEn "hello")])) ∧
    (lookupMap tWitness.direct_map "de" = none →
      lookupMap tWitness.transit_map "de" = none →
      tWitness.translate "hello" "de" = .error (.valueError "No such language")) ∧
    (∀ e, tWitness.translate "hello" "de" = .error e →
      e = .valueError "No such language")) :=
  ⟨⟨capEn, rfl⟩, translate_routing tWitness "hello" "de" ⟨capEn, rfl⟩⟩

/-- The installed-package set used in the C9 counterexample:
`ru -> en`, `ru -> fr`, `en -> fr`, `en -> ru`. -/
def pkgsDup : List ArgosPackage := [⟨"ru", "en"⟩, ⟨"ru", "fr"⟩, ⟨"en", "fr"⟩, ⟨"en", "ru"⟩]

/-- A concrete capability family for the C9 counterexample. -/
def capOf : String → String → String → String :=
  fun f t s => f ++ ">" ++ t ++ ":" ++ s

/-- Executable lexicographic comparison on character lists, matching the
order underlying `String.le`. -/
def charListLe : List Char → List Char → Bool
  | [], _ => true
  | _ :: _, [] => false
  | a :: as, b :: bs =>
    if a < b then true
    else if b < a then false
    else charListLe as bs

/-- Executable `String` comparison. -/
def strLe (a b : String) : Bool := charListLe a.data b.data

lemma charListLe_iff : ∀ x y : List Char, charListLe x y = true ↔ x ≤ y := by
  intro x
  induction x with
  | nil =>
    intro y
    simp only [charListLe, ← not_lt]
    constructor
    · intro _ h
      cases h
    · intro _
      trivial
  | cons a as ih =>
    intro y
    cases y with
    | nil =>
      simp only [charListLe, ← not_lt]
      constructor
      · intro h
        simp at h
      · intro h
        exact absurd List.Lex.nil h
    | cons b bs =>
      simp only [charListLe, ← not_lt]
      by_cases hab : a < b
      · simp only [if_pos hab]
        constructor
        · intro _ h
          cases h with
          | rel hba => exact absurd hab (asymm hba)
          | cons _ => exact absurd hab (lt_irrefl _)
        · intro _
          trivial
      · simp only [if_neg hab]
        by_cases hba : b < a
        · simp only [if_pos hba]
          constructor
          · intro h
            cases h
          · intro h
            exact absurd (List.Lex.rel hba) h
        · simp only [if_neg hba]
          have hEq : a = b := le_antisymm (not_lt.mp hba) (not_lt.mp hab)
          subst hEq
          rw [ih bs, ← not_lt]
          refine not_congr ⟨fun hlt => List.Lex.cons hlt, fun h => ?_⟩
          cases h with
          | rel hba' => exact absurd hba' (lt_irrefl _)
          | cons htail => exact htail

lemma strLe_iff (a b : String) : strLe a b = true ↔ a ≤ b := by
  rw [String.le_iff_toList_le]
  exact charListLe_iff a.data b.data

/-- C9 counterexample: with `ru -> fr` and `en -> fr` both installed —
a reachable constructor state — `available_codes()` returns
`["en", "fr", "fr"]`, so the code `fr` occurs twice, refuting "no code
occurs more than once". -/
theorem available_codes_duplicate :
    (translatorInit pkgsDup capOf).map Translator.available_codes =
      .ok ["en", "fr", "fr"] ∧
    List.count "fr" ["en", "fr", "fr"] = 2 := by
  have step : (translatorInit pkgsDup capOf).map Translator.available_codes =
      .ok (List.insertionSort (· ≤ ·) ["en", "fr", "fr"]) := rfl
  have hff : ("fr" : String) ≤ "fr" := le_refl _
  have hef : ("en" : String) ≤ "fr" := (strLe_iff _ _).mp rfl
  rw [step]
  refine ⟨?_, rfl⟩
  congr 1
  simp only [List.insertionSort, List.orderedInsert, if_pos hff, if_pos hef]

/-- C9 amended: `available_codes()` returns the sorted concatenation of
the two maps' key lists: it is sorted, a code is in the result iff it is a
key of either map, and each code occurs once per map that contains it (so
a code present in both maps occurs twice, not once). -/
theorem available_codes_sorted_concat (t : Translator) :
    List.Sorted (· ≤ ·) t.available_codes ∧
    (∀ c, c ∈ t.available_codes ↔
      c ∈ t.direct_map.map Prod.fst ∨ c ∈ t.transit_map.map Prod.fst) ∧
    (∀ c, t.available_codes.count c =
      (t.direct_map.map Prod.fst).count c + (t.transit_map.map Prod.fst).count c) := by
  refine ⟨List.sorted_insertionSort _ _, ?_, ?_⟩
  · intro c
    rw [Translator.available_codes,
      (List.perm_insertionSort (· ≤ ·) _).mem_iff, List.mem_append]
  · intro c
    rw [Translator.available_codes,
      (List.perm_insertionSort (· ≤ ·) _).count_eq, List.count_append]

/-! ## Line production (`subtitles.py`, `transcoder.py` Stage B) -/

/-- C8 counterexample: the `Line` constructor accepts `start = 5`,
`end = 3`: its validators check only the argument types, so a `Line`
violating `start <= end` is constructed without error, refuting that the
constructor establishes the invariant on every accepted input. -/
theorem lineInit_accepts_unordered :
    lineInit (.num 5) (.num 3) (.str "x") (.str "ru") = .ok ⟨5, 3, "x", "ru"⟩ ∧
    ¬ ((5 : ℚ) ≤ 3) :=
  ⟨rfl, by norm_num⟩

/-- The translated-line batch Stage B (`FFMpeg._texts`) builds for one
recognized line: one `Line` per code in `all_codes`, copying `start` and
`end` from the input line and translating the text. -/
def translate_line (tr : String → String → String) (line : Line)
    (all_codes : List String) : List Line :=
  all_codes.map fun code => ⟨line.start, line.end_, tr line.text code, code⟩

/-- C8 amended: the constructor checks only types (see the counterexample),
but the translation producer copies `start` and `end` verbatim from its
input line, so it preserves `start <= end` whenever the input satisfies it. -/
theorem translated_lines_preserve_times (tr : String → String → String)
    (line : Line) (all_codes : List String) (l' : Line)
    (hmem : l' ∈ translate_line tr line all_codes) :
    l'.start = line.start ∧ l'.end_ = line.end_ ∧
    (line.start ≤ line.end_ → l'.start ≤ l'.end_) := by
  obtain ⟨code, _, rfl⟩ := List.mem_map.mp hmem
  exact ⟨rfl, rfl, fun h => h⟩

/-- An identity "translation" used by witnesses. -/
def trId : String → String → String := fun t _ => t

/-- Witness for the C8 amended theorem at a concrete line and code list. -/
theorem translated_lines_preserve_times_witness :
    (⟨1, 2, "hi", "en"⟩ : Line) ∈ translate_line trId ⟨1, 2, "hi", "ru"⟩ ["en"] ∧
    ((⟨1, 2, "hi", "en"⟩ : Line).start = (⟨1, 2, "hi", "ru"⟩ : Line).start ∧
      (⟨1, 2, "hi", "en"⟩ : Line).end_ = (⟨1, 2, "hi", "ru"⟩ : Line).end_ ∧
      ((⟨1, 2, "hi", "ru"⟩ : Line).start ≤ (⟨1, 2, "hi", "ru"⟩ : Line).end_ →
        (⟨1, 2, "hi", "en"⟩ : Line).start ≤ (⟨1, 2, "hi", "en"⟩ : Line).end_)) :=
  ⟨by simp [translate_line, trId],
    translated_lines_preserve_times trId ⟨1, 2, "hi", "ru"⟩ ["en"] _
      (by simp [translate_line, trId])⟩

/-! ## MediaProbe (`transcoder.info_parse`)

`info_parse` drives two `re` patterns over the probe report: `findall`
with the stream-line pattern, and first-match searches (`next(finditer)`)
for the bitrate, resolution, frame-rate and sample-rate sub-patterns.
The fragment of Python regular expressions those patterns use is embedded
below with Python's backtracking semantics: leftmost alternation
preference and greedy repetition/option. -/

/-- Regular-expression fragment used by `info_parse`'s patterns. -/
inductive RE where
  | lit (cs : List Char)
  | cls (p : Char → Bool)
  | many (p : Char → Bool)
  | many1 (p : Char → Bool)
  | opt (r : RE)
  | alt (a b : RE)
  | cat (a b : RE)
  | grp (idx : Nat) (r : RE)

/-- Captured groups of a match: group number to captured substring. -/
abbrev Caps := List (Nat × String)

/-- Try `k j` for `j = n, n-1, ..., 0`; first success wins (greedy). -/
def tryFrom (k : Nat → Option (List Char × Caps)) : Nat → Option (List Char × Caps)
  | 0 => k 0
  | n + 1 => (k (n + 1)).orElse fun _ => tryFrom k n

/-- Backtracking matcher in continuation-passing style. -/
def reMatch : RE → List Char → Caps →
    (List Char → Caps → Option (List Char × Caps)) → Option (List Char × Caps)
  | .lit cs, s, g, k => if cs.isPrefixOf s then k (s.drop cs.length) g else none
  | .cls p, s, g, k =>
    match s with
    | [] => none
    | c :: rest => if p c then k rest g else none
  | .many p, s, g, k => tryFrom (fun j => k (s.drop j) g) (s.takeWhile p).length
  | .many1 p, s, g, k =>
    match s with
    | [] => none
    | c :: rest =>
      if p c then tryFrom (fun j => k (rest.drop j) g) (rest.takeWhile p).length
      else none
  | .opt r, s, g, k => (reMatch r s g k).orElse fun _ => k s g
  | .alt a b, s, g, k => (reMatch a s g k).orElse fun _ => reMatch b s g k
  | .cat a b, s, g, k => reMatch a s g (fun s2 g2 => reMatch b s2 g2 k)
  | .grp n r, s, g, k =>
    reMatch r s g (fun s2 g2 =>
      k s2 ((n, String.mk (s.take (s.length - s2.length))) :: g2))

/-- One match attempt anchored at the start of `s`. -/
def reMatchAt (r : RE) (s : List Char) : Option (List Char × Caps) :=
  reMatch r s [] (fun s2 g2 => some (s2, g2))

/-- `re.findall`: scan left to right, collect captures of every
non-overlapping match, advancing by one position past empty matches. -/
def reFindallGo (r : RE) : Nat → List Char → List Caps
  | 0, _ => []
  | _ + 1, [] =>
    match reMatchAt r [] with
    | some (_, caps) => [caps]
    | none => []
  | fuel + 1, c :: rest =>
    match reMatchAt r (c :: rest) with
    | some (s2, caps) =>
      if s2.length < (c :: rest).length then caps :: reFindallGo r fuel s2
      else caps :: reFindallGo r fuel rest
    | none => reFindallGo r fuel rest

/-- `re.findall` over a report string. -/
def reFindall (r : RE) (s : String) : List Caps :=
  reFindallGo r (s.data.length + 1) s.data

/-- `next(re.finditer(...))`: the leftmost match, if any. -/
def reSearchGo (r : RE) : List Char → Option Caps
  | [] => (reMatchAt r []).map Prod.snd
  | c :: rest =>
    match reMatchAt r (c :: rest) with
    | some (_, caps) => some caps
    | none => reSearchGo r rest

/-- First match of a sub-pattern inside a trailer string. -/
def reSearch (r : RE) (s : String) : Option Caps :=
  reSearchGo r s.data

/-- Group accessor; unmatched groups read as `""` exactly as in
`re.findall`'s tuples. -/
def getGroup (g : Caps) (n : Nat) : String := (g.lookup n).getD ""

/-- Python `\w` (ASCII range, which covers every probe report here). -/
def isWordChar (c : Char) : Bool := c.isAlphanum || c == '_'

/-- The stream-line pattern
`Stream #0:(\d)(\[[^]]*\])?\(?(\w+)?\)?: (Video|Audio|Subtitle): (\w+) ?[^,\n]*([^\n]*)`. -/
def streamPattern : RE :=
  .cat (.lit "Stream #0:".data)
  (.cat (.grp 1 (.cls Char.isDigit))
  (.cat (.opt (.grp 2 (.cat (.lit ['[']) (.cat (.many (fun c => c != ']')) (.lit [']'])))))
  (.cat (.opt (.lit ['(']))
  (.cat (.opt (.grp 3 (.many1 isWordChar)))
  (.cat (.opt (.lit [')']))
  (.cat (.lit ": ".data)
  (.cat (.grp 4 (.alt (.lit "Video".data) (.alt (.lit "Audio".data) (.lit "Subtitle".data))))
  (.cat (.lit ": ".data)
  (.cat (.grp 5 (.many1 isWordChar))
  (.cat (.opt (.lit [' ']))
  (.cat (.many (fun c => c != ',' && c != '\n'))
        (.grp 6 (.many (fun c => c != '\n'))))))))))))))

/-- The bitrate sub-pattern ` (\d+) kb/s`. -/
def kbsPattern : RE :=
  .cat (.lit [' ']) (.cat (.grp 1 (.many1 Char.isDigit)) (.lit " kb/s".data))

/-- The resolution sub-pattern `(\d+)x(\d+)`. -/
def resolutionPattern : RE :=
  .cat (.grp 1 (.many1 Char.isDigit)) (.cat (.lit ['x']) (.grp 2 (.many1 Char.isDigit)))

/-- The frame-rate sub-pattern `(\d+.?\d+) fps` — note the unescaped `.`,
which matches any character but a newline. -/
def fpsPattern : RE :=
  .cat (.grp 1 (.cat (.many1 Char.isDigit)
    (.cat (.opt (.cls (fun c => c != '\n'))) (.many1 Char.isDigit))))
  (.lit " fps".data)

/-- The sample-rate sub-pattern ` (\d+) Hz`. -/
def hzPattern : RE :=
  .cat (.lit [' ']) (.cat (.grp 1 (.many1 Char.isDigit)) (.lit " Hz".data))

/-- Value of a run of decimal digits. -/
def digitsToNat (s : List Char) : Nat := s.foldl (fun a c => a * 10 + (c.toNat - 48)) 0

/-- `int(s)` on a digit string. -/
def strToNat (s : String) : Nat := digitsToNat s.data

/-- Python `float(s)` on the strings the fps capture can produce
(`\d+`, optionally one arbitrary non-newline character, then `\d+`):
all-digits, `d.d`, `dEd`/`ded` and `d_d` parse; anything else raises
`ValueError`. -/
def pyFloat? (s : String) : Option ℚ :=
  let ds := s.data
  let a := ds.takeWhile Char.isDigit
  let rest := ds.drop a.length
  if a.isEmpty then none
  else match rest with
    | [] => some (digitsToNat ds : ℚ)
    | c :: b =>
      if b.isEmpty || !(b.all Char.isDigit) then none
      else if c == '.' then
        some ((digitsToNat a : ℚ) + (digitsToNat b : ℚ) / (10 : ℚ) ^ b.length)
      else if c == 'e' || c == 'E' then
        some ((digitsToNat a : ℚ) * (10 : ℚ) ^ digitsToNat b)
      else if c == '_' then some (digitsToNat (a ++ b) : ℚ)
      else none

/-- `transcoder.Video` track header. -/
structure Video where
  index : ℤ
  codec : String
  language : String
  bitrate : Option ℚ
  resolution : ℤ × ℤ
  fps : ℚ
  source : String
  deriving DecidableEq, Repr

/-- `transcoder.Audio` track header; `none` models Python `None` as used
by `skip_validators=True` placeholder tracks. -/
structure Audio where
  index : Option ℤ
  codec : Option String
  language : Option String
  bitrate : Option ℚ
  frequency : Option ℤ
  source : String
  deriving DecidableEq, Repr

/-- `transcoder.Subtitles` track header. -/
structure Subtitles where
  index : ℤ
  codec : String
  language : String
  source : String
  deriving DecidableEq, Repr

/-- A `_DataType` value as held in a `MediaContainer`. -/
inductive DataType where
  | video (v : Video)
  | audio (a : Audio)
  | sub (s : Subtitles)
  deriving DecidableEq, Repr

/-- Processing of one matched stream line inside `info_parse`'s loop:
index from group 1, language from group 3, codec from group 5, optional
bitrate from the trailer (group 6, absence is not an error), then the
kind-specific required fields.  `StopIteration` models a failing
`next(finditer(...))`, `ValueError` a failing `float()`, and
`RuntimeError` the explicit `else` arm. -/
def processLine (source : String) (caps : Caps) : Except PyErr DataType :=
  let language := getGroup caps 3
  let codec := getGroup caps 5
  let index : ℤ := strToNat (getGroup caps 1)
  let trailer := getGroup caps 6
  let bitrate : Option ℚ :=
    (reSearch kbsPattern trailer).map fun g => (strToNat (getGroup g 1) : ℚ)
  if getGroup caps 4 = "Video" then
    match reSearch resolutionPattern trailer with
    | none => .error .stopIteration
    | some rg =>
      match reSearch fpsPattern trailer with
      | none => .error .stopIteration
      | some fg =>
        match pyFloat? (getGroup fg 1) with
        | none => .error (.valueError "could not convert string to float")
        | some fps =>
          .ok (.video ⟨index, codec, language, bitrate,
            (strToNat (getGroup rg 1), strToNat (getGroup rg 2)), fps, source⟩)
  else if getGroup caps 4 = "Audio" then
    match reSearch hzPattern trailer with
    | none => .error .stopIteration
    | some fq =>
      .ok (.audio ⟨some index, some codec, some language, bitrate,
        some (strToNat (getGroup fq 1)), source⟩)
  else if getGroup caps 4 = "Subtitle" then
    .ok (.sub ⟨index, codec, language, source⟩)
  else .error .runtimeError

/-- The loop of `info_parse` over the matched stream lines, accumulating
per-kind lists in scan order and stopping at the first raised error. -/
def info_parse_go (source : String) :
    List Caps → Except PyErr (List Video × List Audio × List Subtitles)
  | [] => .ok ([], [], [])
  | caps :: rest => do
    let item ← processLine source caps
    let out ← info_parse_go source rest
    match item with
    | .video v => pure (v :: out.1, out.2.1, out.2.2)
    | .audio a => pure (out.1, a :: out.2.1, out.2.2)
    | .sub s => pure (out.1, out.2.1, s :: out.2.2)

/-- `transcoder.info_parse`: findall over the report with the stream
pattern, then per-line processing. -/
def info_parse (info : String) (source : String) :
    Except PyErr (List Video × List Audio × List Subtitles) :=
  info_parse_go source (reFindall streamPattern info)

/-- The exact condition under which `info_parse`'s loop raises on a
matched stream line: kind `Video` with no resolution match, no frame-rate
match, or a frame-rate capture `float()` rejects; kind `Audio` with no
sample-rate match; or a kind other than the three (unreachable, since the
stream pattern only captures those).  The bitrate sub-pattern is never
consulted: its absence alone is never an error. -/
def badLine (caps : Caps) : Bool :=
  let trailer := getGroup caps 6
  if getGroup caps 4 = "Video" then
    (reSearch resolutionPattern trailer).isNone ||
    (match reSearch fpsPattern trailer with
     | none => true
     | some fg => (pyFloat? (getGroup fg 1)).isNone)
  else if getGroup caps 4 = "Audio" then (reSearch hzPattern trailer).isNone
  else if getGroup caps 4 = "Subtitle" then false
  else true

lemma processLine_error_iff (source : String) (caps : Caps) :
    (∃ e, processLine source caps = .error e) ↔ badLine caps = true := by
  simp only [processLine, badLine]
  split_ifs with h1 h2 h3
  · cases hres : reSearch resolutionPattern (getGroup caps 6) with
    | none => simp [hres]
    | some rg =>
      cases hfps : reSearch fpsPattern (getGroup caps 6) with
      | none => simp [hres, hfps]
      | some fg =>
        cases hfl : pyFloat? (getGroup fg 1) with
        | none => simp [hres, hfps, hfl]
        | some q => simp [hres, hfps, hfl]
  · cases hhz : reSearch hzPattern (getGroup caps 6) with
    | none => simp [hhz]
    | some fq => simp [hhz]
  · simp
  · simp

lemma except_bind_error {α β : Type} (e : PyErr) (f : α → Except PyErr β) :
    (Except.error e >>= f) = Except.error e := rfl

lemma except_bind_ok {α β : Type} (a : α) (f : α → Except PyErr β) :
    (Except.ok a >>= f) = f a := rfl

lemma except_pure_eq_ok {α : Type} (a : α) : (pure a : Except PyErr α) = Except.ok a := rfl

lemma info_parse_go_error_iff (source : String) :
    ∀ l : List Caps, (∃ e, info_parse_go source l = .error e) ↔
      ∃ caps ∈ l, badLine caps = true := by
  intro l
  induction l with
  | nil => simp [info_parse_go]
  | cons caps rest ih =>
    simp only [info_parse_go]
    cases hp : processLine source caps with
    | error e =>
      have hbad : badLine caps = true := (processLine_error_iff source caps).mp ⟨e, hp⟩
      simp [hp, except_bind_error, hbad]
    | ok item =>
      have hnotbad : ¬ badLine caps = true := by
        intro hbl
        obtain ⟨e, he⟩ := (processLine_error_iff source caps).mpr hbl
        rw [hp] at he
        exact absurd he (by simp)
      cases hr : info_parse_go source rest with
      | error e2 =>
        have hex : ∃ caps' ∈ rest, badLine caps' = true := ih.mp ⟨e2, hr⟩
        simp [hp, hr, except_bind_error, except_bind_ok, hnotbad, hex]
      | ok out =>
        have hnone : ¬ ∃ caps' ∈ rest, badLine caps' = true := fun hx => by
          obtain ⟨e2, he2⟩ := ih.mpr hx
          rw [hr] at he2
          exact absurd he2 (by simp)
        simp only [hp, hr, except_bind_error, except_bind_ok]
        cases item with
        | video v => simp [hnotbad, hnone, except_pure_eq_ok]
        | audio a => simp [hnotbad, hnone, except_pure_eq_ok]
        | sub s => simp [hnotbad, hnone, except_pure_eq_ok]

/-- C5 amended: `info_parse` is a pure function of the report text, and it
fails (raises) exactly when some matched stream line is bad in the sense
of `badLine`: a `Video` line lacking resolution or frame rate (or whose
frame-rate capture `float()` rejects), or an `Audio` line lacking a sample
rate.  A line with an unrecognized kind keyword never matches the stream
pattern, so it is silently dropped rather than raising; missing bitrate
alone is never an error. -/
theorem info_parse_error_iff (info source : String) :
    (∃ e, info_parse info source = .error e) ↔
    ∃ caps ∈ reFindall streamPattern info, badLine caps = true :=
  info_parse_go_error_iff source (reFindall streamPattern info)

/-- C5 counterexample: a report whose only stream line claims the
unrecognized kind `Data` parses successfully to empty track lists: the
line never matches the stream pattern and is silently dropped, so no
`ParseError` (nor any other error) is raised, refuting the claim that an
unrecognized kind makes the parse fail. -/
theorem info_parse_unknown_kind_ok :
    reFindall streamPattern "Stream #0:0: Data: bin_data" = [] ∧
    info_parse "Stream #0:0: Data: bin_data" "file.mkv" = .ok ([], [], []) :=
  ⟨rfl, rfl⟩

/-- C10 counterexample: the plain-form stream line with two-digit index
`10` is not dropped: `info_parse` yields an audio track for it (with the
first digit `1` as index and the leftover digit `"0"` as language). -/
theorem info_parse_index_ten_not_dropped :
    info_parse "Stream #0:10: Audio: aac, 48000 Hz" "file.mkv" =
      .ok ([], [⟨some 1, some "aac", some "0", none, some 48000, "file.mkv"⟩], []) :=
  rfl

/-- C10 amended: a stream line with a two-digit index is mis-parsed rather
than reliably dropped.  In the plain form (index 10, no tag) the stream
pattern still matches, capturing the first digit as the index and the
remaining digit as the language tag; when a parenthesized language tag or
a bracket marker follows the two-digit index the line fails to match and
is silently dropped.  Containers with ten or more streams are therefore
probed incorrectly, not merely incompletely. -/
theorem info_parse_index_ten_misparse :
    (reFindall streamPattern "Stream #0:10: Audio: aac, 48000 Hz").map
      (fun c => (getGroup c 1, getGroup c 3)) = [("1", "0")] ∧
    info_parse "Stream #0:10(eng): Audio: aac, 48000 Hz" "file.mkv" = .ok ([], [], []) ∧
    info_parse "Stream #0:10[0x1](eng): Audio: aac, 48000 Hz" "file.mkv" = .ok ([], [], []) :=
  ⟨rfl, rfl, rfl⟩

/-! ## PipelineOrchestrator Stage C (`FFMpeg._translated_texts`)

The loop is modelled as a fold over the sequence of
`(translated-line batch, paired audio fragment)` items that Stage B
pushed before the sentinel; queue order is preserved by the single
producer/single consumer discipline. -/

/-- The audio fragment Stage B pairs with a translated batch, identified
by the span `extract_wav_fragment(line.start, line.end)` it was cut
from. -/
structure Frag where
  start : ℚ
  end_ : ℚ
  deriving DecidableEq, Repr

/-- One recorded call to `tts.tts_line`: the synthesized text and its
language, the fragment passed as `source_wav_fragment` (the voice
reference), and the `silence_amount` argument. -/
structure TTSCall where
  text : String
  lang : String
  refFrag : Frag
  silence : ℚ
  deriving DecidableEq, Repr

/-- The consumer state of the `_translated_texts` loop: `previous` models
`previous_lines`, `difference` the (initially unassigned) local variable,
`subEvents` the lines sent to the non-source subtitle writers in order,
and `ttsCalls` the synthesis calls in order. -/
structure CState where
  previous : List Line
  difference : Option ℚ
  subEvents : List (String × Line)
  ttsCalls : List TTSCall
  deriving DecidableEq, Repr

/-- Subtitle dispatch for one line of the current batch:
`if line.lang in subtitle_codes: subs_writers[line.lang][1].send(line)`.
The writers dict holds exactly `subtitle_codes - {'ru'}`, so a `ru` line
reaching this point would raise `KeyError`. -/
def subStep (subtitle_codes : List String) (st : CState) (line : Line) :
    Except PyErr CState :=
  if subtitle_codes.contains line.lang then
    if line.lang = "ru" then .error (.keyError "ru")
    else .ok { st with subEvents := st.subEvents ++ [(line.lang, line)] }
  else .ok st

/-- Synthesis dispatch for one line of the previous batch:
`if line.lang in audio_codes: tts_line(text=line.text, ...,
source_wav_fragment=sentence_origin.source, silence_amount=difference,
...)`.  Reading `difference` before its first assignment would raise
`NameError`. -/
def ttsStep (audio_codes : List String) (frag : Frag) (st : CState) (line : Line) :
    Except PyErr CState :=
  if audio_codes.contains line.lang then
    match st.difference with
    | none => .error .nameError
    | some d =>
      .ok { st with ttsCalls := st.ttsCalls ++ [⟨line.text, line.lang, frag, d⟩] }
  else .ok st

/-- One iteration of the Stage C loop body on a dequeued item, in source
order: assign `difference = lines[0].start - previous_lines[0].end` when
`previous_lines` is non-empty, send the current lines to their subtitle
writers, synthesize the previous batch's lines against the item's
fragment, then `previous_lines = lines`. -/
def stageC_step (audio_codes subtitle_codes : List String) (st : CState)
    (item : List Line × Frag) : Except PyErr CState := do
  let st1 ←
    if st.previous.isEmpty then pure st
    else
      match item.1.head? with
      | none => Except.error PyErr.indexError
      | some l0 =>
        match st.previous.head? with
        | none => Except.error PyErr.indexError
        | some p0 => pure { st with difference := some (l0.start - p0.end_) }
  let st2 ← item.1.foldlM (subStep subtitle_codes) st1
  let st3 ← st1.previous.foldlM (ttsStep audio_codes item.2) st2
  pure { st3 with previous := item.1 }

/-- The Stage C consumer loop over the queue contents before the sentinel,
from the initial state (`previous_lines = []`, `difference` unassigned).
No trailing flush follows the loop (the source ends in `# TODO: TTS
files`). -/
def stageC_run (audio_codes subtitle_codes : List String)
    (items : List (List Line × Frag)) : Except PyErr CState :=
  items.foldlM (stageC_step audio_codes subtitle_codes) ⟨[], none, [], []⟩

/-- The item stream Stage B (`FFMpeg._texts`) pushes for recognized lines
`ls`: per line, its translated batch paired with the audio fragment
extracted over `[line.start, line.end]`. -/
def stageB_items (tr : String → String → String) (all_codes : List String)
    (ls : List Line) : List (List Line × Frag) :=
  ls.map fun l => (translate_line tr l all_codes, ⟨l.start, l.end_⟩)

/-- The batch held in `previous_lines` for an optional pending source
line. -/
def prevBatch (tr : String → String → String) (all_codes : List String) :
    Option Line → List Line
  | none => []
  | some p => translate_line tr p all_codes

/-- The source line left pending (never synthesized) when the loop ends. -/
def lastSrc (p : Option Line) : List Line → Option Line
  | [] => p
  | l :: ls => lastSrc (some l) ls

/-- The synthesis calls the loop performs on lines `ls`, starting with an
optional pending previous line: nothing for the first batch, and for each
later batch the previous line's audio-language translations, referenced
against the CURRENT batch's fragment with silence
`current.start - previous.end`. -/
def Fcalls (tr : String → String → String) (all_codes audio_codes : List String) :
    Option Line → List Line → List TTSCall
  | _, [] => []
  | none, l :: ls => Fcalls tr all_codes audio_codes (some l) ls
  | some p, l :: ls =>
    (all_codes.filter (fun c => audio_codes.contains c)).map
      (fun c => ⟨tr p.text c, c, ⟨l.start, l.end_⟩, l.start - p.end_⟩) ++
    Fcalls tr all_codes audio_codes (some l) ls

/-- The subtitle events the loop emits: per batch, its lines whose
language is a requested subtitle language, in batch order. -/
def Gevents (tr : String → String → String) (all_codes subtitle_codes : List String) :
    List Line → List (String × Line)
  | [] => []
  | l :: ls =>
    ((translate_line tr l all_codes).filter
      (fun x => subtitle_codes.contains x.lang)).map (fun x => (x.lang, x)) ++
    Gevents tr all_codes subtitle_codes ls

lemma subFold_eq (subtitle_codes : List String) :
    ∀ (lines : List Line) (st : CState), (∀ x ∈ lines, x.lang ≠ "ru") →
    lines.foldlM (subStep subtitle_codes) st = .ok
      { st with subEvents := st.subEvents ++
          ((lines.filter (fun x => subtitle_codes.contains x.lang)).map
            (fun x => (x.lang, x))) } := by
  intro lines
  induction lines with
  | nil =>
    intro st _
    simp only [List.foldlM_nil, List.filter_nil, List.map_nil, List.append_nil]
    rfl
  | cons x xs ih =>
    intro st hru
    have hne : x.lang ≠ "ru" := hru x (by simp)
    have hxs : ∀ y ∈ xs, y.lang ≠ "ru" := fun y hy => hru y (by simp [hy])
    rw [List.foldlM_cons]
    by_cases hc : subtitle_codes.contains x.lang
    · simp only [subStep, if_pos hc, if_neg hne, except_bind_ok]
      rw [ih _ hxs, List.filter_cons_of_pos (by exact hc), List.map_cons]
      simp only [List.append_assoc, List.singleton_append]
    · simp only [subStep, if_neg hc, except_bind_ok]
      rw [ih _ hxs, List.filter_cons_of_neg (by exact hc)]

lemma ttsFold_eq (audio_codes : List String) (frag : Frag) (d : ℚ) :
    ∀ (lines : List Line) (st : CState), st.difference = some d →
    lines.foldlM (ttsStep audio_codes frag) st = .ok
      { st with ttsCalls := st.ttsCalls ++
          ((lines.filter (fun x => audio_codes.contains x.lang)).map
            (fun x => ⟨x.text, x.lang, frag, d⟩)) } := by
  intro lines
  induction lines with
  | nil =>
    intro st _
    simp only [List.foldlM_nil, List.filter_nil, List.map_nil, List.append_nil]
    rfl
  | cons x xs ih =>
    intro st hd
    rw [List.foldlM_cons]
    by_cases hc : audio_codes.contains x.lang
    · simp only [ttsStep, if_pos hc, hd, except_bind_ok]
      rw [ih _ (by simp [hd]), List.filter_cons_of_pos (by exact hc), List.map_cons]
      simp only [List.append_assoc, List.singleton_append]
    · simp only [ttsStep, if_neg hc, except_bind_ok]
      rw [ih _ hd, List.filter_cons_of_neg (by exact hc)]

lemma translate_filter_map (tr : String → String → String) (p : Line)
    (frag : Frag) (d : ℚ) (audio_codes : List String) :
    ∀ all_codes : List String,
    ((translate_line tr p all_codes).filter
      (fun x => audio_codes.contains x.lang)).map
        (fun x => (⟨x.text, x.lang, frag, d⟩ : TTSCall)) =
    (all_codes.filter (fun c => audio_codes.contains c)).map
      (fun c => ⟨tr p.text c, c, frag, d⟩) := by
  intro all_codes
  induction all_codes with
  | nil => simp [translate_line]
  | cons c cs ih =>
    simp only [translate_line, List.map_cons]
    simp only [translate_line] at ih
    by_cases hc : audio_codes.contains c
    · rw [List.filter_cons_of_pos (by exact hc), List.filter_cons_of_pos (by exact hc),
        List.map_cons, List.map_cons, ih]
    · rw [List.filter_cons_of_neg (by exact hc), List.filter_cons_of_neg (by exact hc), ih]

lemma stageC_step_eq (tr : String → String → String)
    (all_codes audio_codes subtitle_codes : List String)
    (hru : ∀ c ∈ all_codes, c ≠ "ru") (hne : all_codes ≠ [])
    (st : CState) (prevSrc : Option Line) (l : Line)
    (hprev : st.previous = prevBatch tr all_codes prevSrc) :
    stageC_step audio_codes subtitle_codes st
      (translate_line tr l all_codes, ⟨l.start, l.end_⟩) =
      .ok { previous := translate_line tr l all_codes,
            difference :=
              match prevSrc with
              | none => st.difference
              | some p => some (l.start - p.end_),
            subEvents := st.subEvents ++
              (((translate_line tr l all_codes).filter
                (fun x => subtitle_codes.contains x.lang)).map (fun x => (x.lang, x))),
            ttsCalls := st.ttsCalls ++
              (match prevSrc with
               | none => []
               | some p =>
                 (all_codes.filter (fun c => audio_codes.contains c)).map
                   (fun c => ⟨tr p.text c, c, (⟨l.start, l.end_⟩ : Frag),
                     l.start - p.end_⟩)) } := by
  have hlang : ∀ x ∈ translate_line tr l all_codes, x.lang ≠ "ru" := by
    intro x hx
    obtain ⟨c, hc, rfl⟩ := List.mem_map.mp hx
    exact hru c hc
  obtain ⟨prev, diff, subs, tts⟩ := st
  dsimp only at hprev
  subst hprev
  cases prevSrc with
  | none =>
    dsimp only [stageC_step, prevBatch, List.isEmpty_nil, if_true]
    rw [except_pure_eq_ok, except_bind_ok,
      subFold_eq subtitle_codes (translate_line tr l all_codes) _ hlang, except_bind_ok]
    dsimp only
    rw [List.foldlM_nil, except_pure_eq_ok, except_bind_ok]
    dsimp only
    simp [List.append_nil, except_pure_eq_ok]
  | some p =>
    rcases all_codes with _ | ⟨c0, cs⟩
    · exact absurd rfl hne
    have hlang2 : ∀ x ∈ translate_line tr l (c0 :: cs), x.lang ≠ "ru" := hlang
    dsimp only [stageC_step, prevBatch, translate_line, List.map_cons, List.isEmpty_cons,
      List.head?_cons]
    simp only [Bool.false_eq_true, if_false, except_pure_eq_ok, except_bind_ok]
    have hsub := subFold_eq subtitle_codes
      (Line.mk l.start l.end_ (tr l.text c0) c0 ::
        List.map (fun code => Line.mk l.start l.end_ (tr l.text code) code) cs)
      ⟨Line.mk p.start p.end_ (tr p.text c0) c0 ::
        List.map (fun code => Line.mk p.start p.end_ (tr p.text code) code) cs,
        some (l.start - p.end_), subs, tts⟩
      (by
        intro x hx
        refine hlang2 x ?_
        simpa [translate_line, List.map_cons] using hx)
    rw [hsub, except_bind_ok]
    dsimp only
    have htts := ttsFold_eq audio_codes (⟨l.start, l.end_⟩ : Frag) (l.start - p.end_)
      (Line.mk p.start p.end_ (tr p.text c0) c0 ::
        List.map (fun code => Line.mk p.start p.end_ (tr p.text code) code) cs)
      ⟨Line.mk p.start p.end_ (tr p.text c0) c0 ::
        List.map (fun code => Line.mk p.start p.end_ (tr p.text code) code) cs,
        some (l.start - p.end_),
        subs ++ (((Line.mk l.start l.end_ (tr l.text c0) c0 ::
          List.map (fun code => Line.mk l.start l.end_ (tr l.text code) code) cs).filter
            (fun x => subtitle_codes.contains x.lang)).map (fun x => (x.lang, x))),
        tts⟩
      rfl
    rw [htts, except_bind_ok]
    dsimp only
    have hmap := translate_filter_map tr p (⟨l.start, l.end_⟩ : Frag)
      (l.start - p.end_) audio_codes (c0 :: cs)
    simp only [translate_line, List.map_cons] at hmap
    rw [hmap]

lemma stageC_go (tr : String → String → String)
    (all_codes audio_codes subtitle_codes : List String)
    (hru : ∀ c ∈ all_codes, c ≠ "ru") (hne : all_codes ≠ []) :
    ∀ (ls : List Line) (st : CState) (prevSrc : Option Line),
    st.previous = prevBatch tr all_codes prevSrc →
    ∃ stF, (stageB_items tr all_codes ls).foldlM
        (stageC_step audio_codes subtitle_codes) st = .ok stF ∧
      stF.previous = prevBatch tr all_codes (lastSrc prevSrc ls) ∧
      stF.subEvents = st.subEvents ++ Gevents tr all_codes subtitle_codes ls ∧
      stF.ttsCalls = st.ttsCalls ++ Fcalls tr all_codes audio_codes prevSrc ls := by
  intro ls
  induction ls with
  | nil =>
    intro st prevSrc hprev
    refine ⟨st, ?_, ?_, ?_, ?_⟩
    · simp [stageB_items, List.foldlM_nil, except_pure_eq_ok]
    · simpa [lastSrc] using hprev
    · simp [Gevents]
    · simp [Fcalls]
  | cons l ls ih =>
    intro st prevSrc hprev
    simp only [stageB_items, List.map_cons, List.foldlM_cons]
    rw [stageC_step_eq tr all_codes audio_codes subtitle_codes hru hne st prevSrc l hprev,
      except_bind_ok]
    obtain ⟨stF, hfold, hprevF, hsub, htts⟩ := ih
      { previous := translate_line tr l all_codes,
        difference :=
          match prevSrc with
          | none => st.difference
          | some p => some (l.start - p.end_),
        subEvents := st.subEvents ++
          (((translate_line tr l all_codes).filter
            (fun x => subtitle_codes.contains x.lang)).map (fun x => (x.lang, x))),
        ttsCalls := st.ttsCalls ++
          (match prevSrc with
           | none => []
           | some p =>
             (all_codes.filter (fun c => audio_codes.contains c)).map
               (fun c => ⟨tr p.text c, c, (⟨l.start, l.end_⟩ : Frag), l.start - p.end_⟩)) }
      (some l) rfl
    simp only [stageB_items] at hfold
    refine ⟨stF, hfold, ?_, ?_, ?_⟩
    · simpa [lastSrc] using hprevF
    · rw [hsub]
      dsimp only
      rw [Gevents, List.append_assoc]
    · rw [htts]
      dsimp only
      cases prevSrc with
      | none =>
        simp only [Fcalls, List.append_nil]
      | some p =>
        rw [Fcalls, List.append_assoc]

/-- The synthesis-call trace of a full Stage C run, indexed by consecutive
pairs of recognized lines: while processing batch `i` (`i >= 2`) the loop
synthesizes batch `i-1`'s audio-language lines, passing the CURRENT item's
fragment `(cur.start, cur.end)` as `source_wav_fragment` and
`cur.start - prev.end` as `silence_amount`. -/
def ttsTrace (tr : String → String → String) (all_codes audio_codes : List String)
    (ls : List Line) : List TTSCall :=
  (ls.zip ls.tail).flatMap fun pc =>
    (all_codes.filter (fun c => audio_codes.contains c)).map
      (fun c => ⟨tr pc.1.text c, c, ⟨pc.2.start, pc.2.end_⟩, pc.2.start - pc.1.end_⟩)

lemma Fcalls_some_eq (tr : String → String → String)
    (all_codes audio_codes : List String) :
    ∀ (ls : List Line) (p : Line),
    Fcalls tr all_codes audio_codes (some p) ls =
      ttsTrace tr all_codes audio_codes (p :: ls) := by
  intro ls
  induction ls with
  | nil =>
    intro p
    simp [Fcalls, ttsTrace]
  | cons l ls ih =>
    intro p
    rw [Fcalls, ih l]
    simp [ttsTrace]

lemma Fcalls_none_eq (tr : String → String → String)
    (all_codes audio_codes : List String) (ls : List Line) :
    Fcalls tr all_codes audio_codes none ls = ttsTrace tr all_codes audio_codes ls := by
  cases ls with
  | nil => simp [Fcalls, ttsTrace]
  | cons l ls => rw [Fcalls, Fcalls_some_eq]

/-- C1 amended: in every run, processing batch `i >= 2` synthesizes the
previous batch's (`i-1`) audio-language lines with inter-line silence
`current_batch.start - previous_batch.end`, but the voice/style reference
passed to the synthesizer is the CURRENT batch's paired audio fragment
(fragment `i`), not the previous one: the call trace equals `ttsTrace`,
whose reference fragment is `(cur.start, cur.end)`. -/
theorem stageC_synthesis_trace (tr : String → String → String)
    (all_codes audio_codes subtitle_codes : List String) (ls : List Line)
    (hru : ∀ c ∈ all_codes, c ≠ "ru") (hne : all_codes ≠ []) :
    ∃ stF, stageC_run audio_codes subtitle_codes (stageB_items tr all_codes ls) =
        .ok stF ∧
      stF.ttsCalls = ttsTrace tr all_codes audio_codes ls := by
  obtain ⟨stF, hr, _, _, ht⟩ :=
    stageC_go tr all_codes audio_codes subtitle_codes hru hne ls ⟨[], none, [], []⟩ none rfl
  refine ⟨stF, hr, ?_⟩
  rw [ht, Fcalls_none_eq]
  rfl

/-- Witness for the C1 amended theorem on a concrete two-line run. -/
theorem stageC_synthesis_trace_witness :
    (∀ c ∈ ["en"], c ≠ "ru") ∧ (["en"] : List String) ≠ [] ∧
    (∃ stF, stageC_run ["en"] ["en"]
        (stageB_items trId ["en"] [⟨0, 2, "a", "ru"⟩, ⟨10, 12, "b", "ru"⟩]) = .ok stF ∧
      stF.ttsCalls = ttsTrace trId ["en"] ["en"] [⟨0, 2, "a", "ru"⟩, ⟨10, 12, "b", "ru"⟩]) :=
  ⟨by decide, by decide,
    stageC_synthesis_trace trId ["en"] ["en"] ["en"]
      [⟨0, 2, "a", "ru"⟩, ⟨10, 12, "b", "ru"⟩] (by decide) (by decide)⟩

/-- C1 counterexample: in a concrete two-batch run (batch 1 spans
`[0, 2]`, batch 2 spans `[10, 12]`), the single synthesis call — for
batch 1's line, performed while processing batch 2 — passes fragment
`(10, 12)`, i.e. batch 2's paired fragment, and not batch 1's fragment
`(0, 2)` as the claim requires. -/
theorem stageC_run_uses_second_fragment :
    (stageC_run ["en"] ["en"] (stageB_items trId ["en"]
      [⟨0, 2, "a", "ru"⟩, ⟨10, 12, "b", "ru"⟩])).map
        (fun st => st.ttsCalls.map (fun c => c.refFrag)) = .ok [⟨10, 12⟩] ∧
    (⟨10, 12⟩ : Frag) ≠ (⟨0, 2⟩ : Frag) :=
  ⟨rfl, by decide⟩

lemma ttsTrace_en_texts (tr : String → String → String) :
    ∀ ls : List Line, (ttsTrace tr ["en"] ["en"] ls).map (fun c => c.text) =
      ls.dropLast.map (fun l => tr l.text "en") := by
  intro ls
  induction ls with
  | nil => rfl
  | cons l ls ih =>
    cases ls with
    | nil => rfl
    | cons l2 ls2 =>
      simp only [ttsTrace] at ih ⊢
      simp only [List.zip_cons_cons, List.tail_cons, List.flatMap_cons, List.map_append,
        List.map_cons] at ih ⊢
      rw [ih]
      rfl

lemma Gevents_en (tr : String → String → String) :
    ∀ ls : List Line, Gevents tr ["en"] ["en"] ls =
      ls.map (fun l => ("en", Line.mk l.start l.end_ (tr l.text "en") "en")) := by
  intro ls
  induction ls with
  | nil => rfl
  | cons l ls ih =>
    rw [Gevents, ih]
    rfl

/-- C2: for a run with recognized lines `ls` (n >= 1) and requested
audio = {en}, subtitles = {en} (so `all_codes = [en]`), Stage C as written
— with no flush after the sentinel — synthesizes spoken audio exactly for
batches `1..n-1` (texts are the translations of all but the last line, so
3 recognized lines yield 2 synthesized lines) while the English subtitle
writer still receives all `n` lines. -/
theorem stageC_en_counts (tr : String → String → String) (ls : List Line)
    (h : ls ≠ []) :
    ∃ stF, stageC_run ["en"] ["en"] (stageB_items tr ["en"] ls) = .ok stF ∧
      stF.ttsCalls.length = ls.length - 1 ∧
      stF.ttsCalls.map (fun c => c.text) = ls.dropLast.map (fun l => tr l.text "en") ∧
      (stF.subEvents.filter (fun e => e.1 == "en")).length = ls.length := by
  obtain ⟨stF, hr, _, hsub, ht⟩ :=
    stageC_go tr ["en"] ["en"] ["en"] (by decide) (by decide) ls ⟨[], none, [], []⟩ none rfl
  have htts : stF.ttsCalls = ttsTrace tr ["en"] ["en"] ls := by
    rw [ht, Fcalls_none_eq]
    rfl
  refine ⟨stF, hr, ?_, ?_, ?_⟩
  · have hlen : (stF.ttsCalls.map (fun c => c.text)).length =
        (ls.dropLast.map (fun l => tr l.text "en")).length := by
      rw [htts, ttsTrace_en_texts]
    simpa [List.length_map, List.length_dropLast] using hlen
  · rw [htts, ttsTrace_en_texts]
  · have hev : stF.subEvents =
        ls.map (fun l => ("en", Line.mk l.start l.end_ (tr l.text "en") "en")) := by
      rw [hsub, Gevents_en]
      rfl
    rw [hev, List.filter_eq_self.mpr]
    · rw [List.length_map]
    · intro e he
      obtain ⟨l2, _, rfl⟩ := List.mem_map.mp he
      simp

/-- Witness for C2 on a concrete three-line run. -/
theorem stageC_en_counts_witness :
    ([⟨0, 2, "a", "ru"⟩, ⟨10, 12, "b", "ru"⟩, ⟨20, 21, "c", "ru"⟩] : List Line) ≠ [] ∧
    (∃ stF, stageC_run ["en"] ["en"] (stageB_items trId ["en"]
        [⟨0, 2, "a", "ru"⟩, ⟨10, 12, "b", "ru"⟩, ⟨20, 21, "c", "ru"⟩]) = .ok stF ∧
      stF.ttsCalls.length =
        ([⟨0, 2, "a", "ru"⟩, ⟨10, 12, "b", "ru"⟩, ⟨20, 21, "c", "ru"⟩] : List Line).length - 1 ∧
      stF.ttsCalls.map (fun c => c.text) =
        ([⟨0, 2, "a", "ru"⟩, ⟨10, 12, "b", "ru"⟩, ⟨20, 21, "c", "ru"⟩] : List Line).dropLast.map
          (fun l => trId l.text "en") ∧
      (stF.subEvents.filter (fun e => e.1 == "en")).length =
        ([⟨0, 2, "a", "ru"⟩, ⟨10, 12, "b", "ru"⟩, ⟨20, 21, "c", "ru"⟩] : List Line).length) :=
  ⟨by decide,
    stageC_en_counts trId [⟨0, 2, "a", "ru"⟩, ⟨10, 12, "b", "ru"⟩, ⟨20, 21, "c", "ru"⟩]
      (by decide)⟩

/-! ## Muxer (`FFMpeg.build_mc`) and run assembly (`FFMpeg.run`) -/

/-- Decimal rendering of an integer, as an f-string interpolates it. -/
def intStr (n : ℤ) : String := ⟨intRepr n⟩

/-- `source` of a `_DataType` object. -/
def DataType.source : DataType → String
  | .video v => v.source
  | .audio a => a.source
  | .sub s => s.source

/-- `f"{object.index}"` as the stream map renders it (Python prints a
`None` index as `"None"`). -/
def DataType.indexStr : DataType → String
  | .video v => intStr v.index
  | .audio a =>
    match a.index with
    | some i => intStr i
    | none => "None"
  | .sub s => intStr s.index

/-- `isinstance(object, Subtitles)`. -/
def DataType.isSub : DataType → Bool
  | .sub _ => true
  | _ => false

/-- Python `str.endswith`, modelled on the character lists. -/
def pyEndsWith (s suffix : String) : Bool := suffix.data.isSuffixOf s.data

/-- Python `inputs_l.index(x)` wrapped in `try/except ValueError`. -/
def listIndex? (x : String) : List String → Option Nat
  | [] => none
  | y :: ys => if y = x then some 0 else (listIndex? x ys).map (· + 1)

/-- The loop of `build_mc` that computes the deduplicated input list and
the stream maps: every subtitle object is skipped outright when the
target file name ends in `.mp4`; each kept object appends
`-map input_index:stream_index`, adding its source file to the inputs on
first appearance. -/
def build_mc_lists (pathName : String) (objs : List DataType) :
    List String × List String :=
  let no_subtitles := pyEndsWith pathName ".mp4"
  objs.foldl
    (fun acc obj =>
      if obj.isSub && no_subtitles then acc
      else
        match listIndex? obj.source acc.1 with
        | some i => (acc.1, acc.2 ++ ["-map " ++ intStr i ++ ":" ++ obj.indexStr])
        | none => (acc.1 ++ [obj.source],
            acc.2 ++ ["-map " ++ intStr acc.1.length ++ ":" ++ obj.indexStr]))
    ([], [])

/-- The argument list of the one external invocation `build_mc` issues:
one `-i` per deduplicated input, then `-c copy -shortest` and the quoted
target.  The computed stream maps are NOT passed: the source leaves them
commented out (`# *maps TODO:`). -/
def build_mc_command (pathName : String) (objs : List DataType) : List String :=
  ((build_mc_lists pathName objs).1.map (fun i => "-i \x22" ++ i ++ "\x22")) ++
    ["-c copy -shortest", "\x22" ++ pathName ++ "\x22"]

/-- The concrete container of the C6 failing input: one video (stream 0 of
`v.mp4`), one audio (stream 1 of `a.aac`), one subtitle (stream 2 of
`s.srt`). -/
def mcVAS : List DataType :=
  [.video ⟨0, "h264", "", none, (1920, 1080), 30, "v.mp4"⟩,
   .audio ⟨some 1, some "aac", some "", none, some 48000, "a.aac"⟩,
   .sub ⟨2, "subrip", "en", "s.srt"⟩]

/-- A container whose video and audio share one source file, showing the
first-appearance deduplication of inputs. -/
def mcShared : List DataType :=
  [.video ⟨0, "h264", "", none, (1920, 1080), 30, "av.mkv"⟩,
   .audio ⟨some 1, some "aac", some "", none, some 48000, "av.mkv"⟩]

/-- C6 evidence: on the failing input, the inputs are deduplicated by
source in first-appearance order and the computed stream maps behave as
the claim says (`.mp4` drops the subtitle entry, `.mkv` keeps it, a shared
source is one input) — but the issued command contains no `-map` argument
at all: the maps are computed and then left out of the invocation. -/
theorem build_mc_command_has_no_maps :
    build_mc_lists "out.mp4" mcVAS = (["v.mp4", "a.aac"], ["-map 0:0", "-map 1:1"]) ∧
    build_mc_lists "out.mkv" mcVAS =
      (["v.mp4", "a.aac", "s.srt"], ["-map 0:0", "-map 1:1", "-map 2:2"]) ∧
    build_mc_lists "out.mkv" mcShared = (["av.mkv"], ["-map 0:0", "-map 0:1"]) ∧
    build_mc_command "out.mp4" mcVAS =
      ["-i \x22v.mp4\x22", "-i \x22a.aac\x22", "-c copy -shortest", "\x22out.mp4\x22"] ∧
    build_mc_command "out.mkv" mcVAS =
      ["-i \x22v.mp4\x22", "-i \x22a.aac\x22", "-i \x22s.srt\x22",
        "-c copy -shortest", "\x22out.mkv\x22"] ∧
    (build_mc_command "out.mp4" mcVAS ++ build_mc_command "out.mkv" mcVAS).all
      (fun arg => !("-map".data.isPrefixOf arg.data)) = true :=
  ⟨rfl, rfl, rfl, rfl, rfl, rfl⟩

/-- The assembly `FFMpeg.run` performs after joining the three stages:
`mc.add(source_info[0][0])` (the FIRST VIDEO track, despite the comment
`# Original audio`), then every synthesized wav concatenated in production
order into one combined track, then the registered subtitle tracks.  The
original audio track `source_info[1][0]` is read earlier (for wav
extraction, modelled by the head check) but never added to the container. -/
def run_assemble (source_info : List Video × List Audio × List Subtitles)
    (translated_audio : List Audio) (translated_subtitles : List Subtitles)
    (combinedSource : String) : Except PyErr (List String × List DataType) :=
  match source_info.2.1.head? with
  | none => .error .indexError
  | some _ =>
    match source_info.1.head? with
    | none => .error .indexError
    | some v0 =>
      let segments := translated_audio.map (fun a => a.source)
      let combined : Audio := ⟨none, none, none, none, none, combinedSource⟩
      .ok (segments, [.video v0, .audio combined] ++ translated_subtitles.map .sub)

/-- The concrete probe result of the C3 failing input: one video and one
audio track. -/
def srcInfoVA : List Video × List Audio × List Subtitles :=
  ([⟨0, "h264", "", none, (1920, 1080), 30, "src.mkv"⟩],
   [⟨some 1, some "aac", some "", none, some 48000, "src.mkv"⟩],
   [])

/-- A synthesized audio segment of the C3 failing input. -/
def synthA : Audio := ⟨some 0, some "pcm_s16le", some "en", none, some 24000, "tts1.wav"⟩

/-- A registered subtitle track of the C3 failing input. -/
def subEn : Subtitles := ⟨0, "subrip", "en", "subs_en.srt"⟩

/-- C3 evidence: on a source with one video and one audio track, the
container handed to the Muxer holds the original VIDEO track, the single
combined synthesized-audio track (whose segment list is the synthesized
sources in production order), and the subtitle track — and the original
AUDIO track `source_info[1][0]` is NOT in the container, although the
spec requires it (the source line even carries the comment
`# Original audio` while adding `source_info[0][0]`, a video). -/
theorem run_assemble_drops_original_audio :
    run_assemble srcInfoVA [synthA] [subEn] "combined.wav" =
      .ok (["tts1.wav"],
        [.video ⟨0, "h264", "", none, (1920, 1080), 30, "src.mkv"⟩,
         .audio ⟨none, none, none, none, none, "combined.wav"⟩,
         .sub subEn]) ∧
    (DataType.audio ⟨some 1, some "aac", some "", none, some 48000, "src.mkv"⟩) ∉
      [DataType.video ⟨0, "h264", "", none, (1920, 1080), 30, "src.mkv"⟩,
       DataType.audio ⟨none, none, none, none, none, "combined.wav"⟩,
       DataType.sub subEn] :=
  ⟨rfl, by decide⟩
